import Mathlib

/-!
Shallow embedding of `yt_transcript/cli.py` and a verification of the
specification's claims about its two core functions:

* `extract_video_id` — parses a YouTube URL or bare 11-character video
  identifier using the regular expression
  `YT_ID_RE = (?:v=|\/)([0-9A-Za-z_-]{11}).*` and the bare-identifier test
  `re.match("^[0-9A-Za-z_-]+$", s)` on strings of length 11.
* `fetch_transcript` — queries an external caption-listing service,
  walks the preferred-language list trying a manual track first and an
  auto-generated track second for each language, falls back to the
  service default, joins segment texts with a single space, and
  translates service-level failures into `RuntimeError` messages
  (here: `Except String`).

The external `youtube_transcript_api` library is modelled by the
`Service`/`TranscriptList` records: each lookup either returns a list of
caption segments or signals one of the library's failure categories
(`ServiceError`).  Python exception propagation becomes the `Except`
monad; the ordered `except` clause chain of the source becomes the
pattern match in `translateError`, which preserves the source's clause
order (in particular, the dedicated `VideoUnavailable` clause of the
source is dead because the `except Exception` catch-all precedes it, so
the model routes `videoUnavailable` through the catch-all branch).
-/

namespace YtTranscript

instance {ε α : Type} [DecidableEq ε] [DecidableEq α] : DecidableEq (Except ε α) :=
  fun x y =>
    match x, y with
    | .ok a, .ok b =>
      if h : a = b then .isTrue (by rw [h]) else
        .isFalse (by intro hc; cases hc; exact h rfl)
    | .error a, .error b =>
      if h : a = b then .isTrue (by rw [h]) else
        .isFalse (by intro hc; cases hc; exact h rfl)
    | .ok _, .error _ => .isFalse (by intro hc; cases hc)
    | .error _, .ok _ => .isFalse (by intro hc; cases hc)

/-! ## Identifier extractor (`extract_video_id`, `YT_ID_RE`) -/

/-- Membership in the character class `[0-9A-Za-z_-]`. -/
def isIdChar (c : Char) : Bool :=
  c.isAlphanum || c == '_' || c == '-'

/-- Truthiness of Python `re.match(r"^[0-9A-Za-z_-]+$", s)`.  In Python,
`$` matches at the end of the string or just before a newline that ends
the string, so besides a nonempty all-identifier string the pattern also
accepts a nonempty run of identifier characters followed by one final
newline character. -/
def pyMatchIdLine (s : String) : Bool :=
  (!s.toList.isEmpty && s.toList.all isIdChar) ||
  (decide (2 ≤ s.toList.length) && s.toList.dropLast.all isIdChar
    && (s.toList.getLast? == some '\n'))

/-- One attempt of `YT_ID_RE` after the `v=`/`/` anchor: the next 11
characters must exist and lie in `[0-9A-Za-z_-]`; they form the captured
group.  The regex's trailing `.*` never fails. -/
def window (rest : List Char) : Option String :=
  if (rest.take 11).all isIdChar && Nat.ble 11 rest.length
  then some (String.mk (rest.take 11)) else none

/-- Attempt to match `YT_ID_RE` at the current position: the alternation
`(?:v=|\/)` followed by the 11-character capture. -/
def tryMatchAt : List Char → Option String
  | [] => none
  | [c] => if c == '/' then window [] else none
  | c :: c2 :: rest =>
    if c == 'v' then
      if c2 == '=' then window rest else none
    else if c == '/' then window (c2 :: rest)
    else none

/-- `YT_ID_RE.search`: scan positions left to right, return the capture
of the first position where the pattern matches. -/
def searchId : List Char → Option String
  | [] => none
  | c :: rest =>
    match tryMatchAt (c :: rest) with
    | some g => some g
    | none => searchId rest

/-- The ASCII apostrophe used to quote the input in the parse-error
message. -/
def quoteMark : String := String.singleton (Char.ofNat 39)

/-- `extract_video_id(url_or_id)`: bare-identifier fast path (length 11
and `re.match("^[0-9A-Za-z_-]+$", ...)`), otherwise `YT_ID_RE.search`,
otherwise `ValueError` carrying the original input. -/
def extract_video_id (url_or_id : String) : Except String String :=
  if url_or_id.length = 11 ∧ pyMatchIdLine url_or_id = true then .ok url_or_id
  else
    match searchId url_or_id.toList with
    | some g => .ok g
    | none =>
      .error ("Could not parse a YouTube video ID from " ++ quoteMark
        ++ url_or_id ++ quoteMark)

/-! ## Transcript resolver (`fetch_transcript`) -/

/-- A caption segment.  The source reads only the `"text"` key of each
segment dictionary (`t["text"]`); the `start`/`duration` keys are never
consulted, so they are not modelled. -/
structure Segment where
  text : String
deriving DecidableEq

/-- The failure categories of the external caption service that the
source names: `TranscriptsDisabled`, `NoTranscriptFound`,
`VideoUnavailable`, and every other exception (all carrying a message,
the Python `str(e)`). -/
inductive ServiceError where
  | transcriptsDisabled (msg : String)
  | noTranscriptFound (msg : String)
  | videoUnavailable (msg : String)
  | other (msg : String)
deriving DecidableEq

/-- The object returned by `YouTubeTranscriptApi.list`: lookups by
language list, each either producing the fetched segment list or
failing.  (`find_transcript(...).fetch()` is modelled as one call, since
the source always chains them.) -/
structure TranscriptList where
  find_transcript : List String → Except ServiceError (List Segment)
  find_generated_transcript : List String → Except ServiceError (List Segment)

/-- The external service: `YouTubeTranscriptApi.list(video_id)`. -/
structure Service where
  list : String → Except ServiceError TranscriptList

/-- `" ".join([t["text"] for t in segs])`. -/
def joinTexts (segs : List Segment) : String :=
  String.intercalate " " (segs.map Segment.text)

/-- Python `str.lower()`: lowercase each character (`Char.toLower`, the
ASCII mapping, which is what matters for the `"rate"` test). -/
def pyLower (s : String) : String :=
  String.mk (s.toList.map Char.toLower)

/-- Python `"rate" in str(e).lower()`, i.e. substring containment. -/
def containsSub (hay needle : String) : Bool :=
  (List.range (hay.toList.length + 1)).any
    (fun i => needle.toList.isPrefixOf (hay.toList.drop i))

/-- The ordered `except` clause chain of `fetch_transcript`.  The clause
order of the source is preserved: `TranscriptsDisabled`, then
`NoTranscriptFound`, then the `except Exception` catch-all (which tests
`"rate" in str(e).lower()`), and only then the `except VideoUnavailable`
clause — which is therefore unreachable, so a `videoUnavailable` failure
is handled by the catch-all. -/
def translateError : ServiceError → String
  | .transcriptsDisabled _ => "Transcripts are disabled for this video."
  | .noTranscriptFound _ => "No transcript available in the requested languages."
  | .videoUnavailable msg =>
    if containsSub (pyLower msg) "rate" then
      "YouTube is rate-limiting us.  Try again later."
    else "Unexpected error: " ++ msg
  | .other msg =>
    if containsSub (pyLower msg) "rate" then
      "YouTube is rate-limiting us.  Try again later."
    else "Unexpected error: " ++ msg

/-- `preferred_langs = preferred_langs or ["en"]`: Python `or` takes the
right operand when the left is falsy, i.e. `None` or the empty list. -/
def effectiveLangs : Option (List String) → List String
  | none => ["en"]
  | some [] => ["en"]
  | some (l :: ls) => l :: ls

/-- The `for lang in preferred_langs` loop of `fetch_transcript`: for
each language try the manual track, on `NoTranscriptFound` try the
auto-generated track, on `NoTranscriptFound` again continue with the
next language; after the loop, ask the service for its own default via
`find_transcript([])`.  Any other failure propagates to the `except`
chain. -/
def tryLangs (tl : TranscriptList) : List String → Except ServiceError String
  | [] => Except.map joinTexts (tl.find_transcript [])
  | lang :: rest =>
    match tl.find_transcript [lang] with
    | .ok segs => .ok (joinTexts segs)
    | .error e =>
      match e with
      | .noTranscriptFound _ =>
        match tl.find_generated_transcript [lang] with
        | .ok segs2 => .ok (joinTexts segs2)
        | .error e2 =>
          match e2 with
          | .noTranscriptFound _ => tryLangs tl rest
          | _ => .error e2
      | _ => .error e

/-- `fetch_transcript(video_id, preferred_langs)`: normalise the
language list, list the tracks, run the fallback loop, and translate any
service failure through the `except` chain. -/
def fetch_transcript (svc : Service) (video_id : String)
    (preferred_langs : Option (List String)) : Except String String :=
  match svc.list video_id with
  | .error e => .error (translateError e)
  | .ok transcript_list =>
    match tryLangs transcript_list (effectiveLangs preferred_langs) with
    | .ok text => .ok text
    | .error e => .error (translateError e)

end YtTranscript

namespace YtTranscript

/-- The URL pattern of the specification: somewhere in the string, a
`v=` or `/` anchor followed by 11 characters over `[0-9A-Za-z_-]`. -/
def hasUrlPattern (cs : List Char) : Prop :=
  ∃ p mid g q, cs = p ++ mid ++ g ++ q ∧ (mid = ['v', '='] ∨ mid = ['/']) ∧
    g.length = 11 ∧ g.all isIdChar = true

lemma window_eq_some {rest : List Char} {r : String} (h : window rest = some r) :
    r = String.mk (rest.take 11) ∧ (rest.take 11).all isIdChar = true ∧
      11 ≤ rest.length := by
  unfold window at h
  split at h
  · next hc =>
    rw [Bool.and_eq_true] at hc
    injection h with h
    exact ⟨h.symm, hc.1, Nat.le_of_ble_eq_true hc.2⟩
  · exact absurd h (by simp)

lemma window_append {g q : List Char} (hlen : g.length = 11)
    (hall : g.all isIdChar = true) : window (g ++ q) = some (String.mk g) := by
  unfold window
  rw [List.take_left' hlen, hall]
  have hble : Nat.ble 11 (g ++ q).length = true := by
    rw [Nat.ble_eq, List.length_append, hlen]
    omega
  rw [hble]
  rfl

lemma window_full {g : List Char} (hlen : g.length = 11)
    (hall : g.all isIdChar = true) : window g = some (String.mk g) := by
  have h := window_append (q := []) hlen hall
  rwa [List.append_nil] at h

lemma tryMatchAt_some {cs : List Char} {r : String} (h : tryMatchAt cs = some r) :
    ∃ g q, (cs = 'v' :: '=' :: (g ++ q) ∨ cs = '/' :: (g ++ q)) ∧
      g.length = 11 ∧ g.all isIdChar = true ∧ r = String.mk g := by
  match cs with
  | [] => exact absurd h (by simp [tryMatchAt])
  | [c] =>
    exfalso
    simp only [tryMatchAt] at h
    rw [show window ([] : List Char) = none from rfl, ite_self] at h
    exact Option.noConfusion h
  | c :: c2 :: rest =>
    simp only [tryMatchAt] at h
    by_cases hv : c == 'v'
    · rw [if_pos hv] at h
      by_cases he : c2 == '='
      · rw [if_pos he] at h
        obtain ⟨hr, hall, hle⟩ := window_eq_some h
        refine ⟨rest.take 11, rest.drop 11, ?_, ?_, hall, hr⟩
        · left
          rw [List.take_append_drop, (beq_iff_eq.mp hv), (beq_iff_eq.mp he)]
        · rw [List.length_take]
          omega
      · rw [if_neg he] at h
        exact absurd h (by simp)
    · rw [if_neg hv] at h
      by_cases hs : c == '/'
      · rw [if_pos hs] at h
        obtain ⟨hr, hall, hle⟩ := window_eq_some h
        refine ⟨(c2 :: rest).take 11, (c2 :: rest).drop 11, ?_, ?_, hall, hr⟩
        · right
          rw [List.take_append_drop, (beq_iff_eq.mp hs)]
        · rw [List.length_take]
          omega
      · rw [if_neg hs] at h
        exact absurd h (by simp)

lemma searchId_some_props : ∀ (cs : List Char) (r : String),
    searchId cs = some r → r.toList.length = 11 ∧ r.toList.all isIdChar = true
  | [], r, h => absurd h (by simp [searchId])
  | c :: rest, r, h => by
    unfold searchId at h
    cases htm : tryMatchAt (c :: rest) with
    | some g =>
      rw [htm] at h
      injection h with h
      subst h
      obtain ⟨g', q, _, hlen, hall, hr⟩ := tryMatchAt_some htm
      subst hr
      exact ⟨hlen, hall⟩
    | none =>
      rw [htm] at h
      exact searchId_some_props rest r h

lemma searchId_some_hasPattern : ∀ (cs : List Char) (r : String),
    searchId cs = some r → hasUrlPattern cs
  | [], r, h => absurd h (by simp [searchId])
  | c :: rest, r, h => by
    unfold searchId at h
    cases htm : tryMatchAt (c :: rest) with
    | some g =>
      obtain ⟨g', q, hcs, hlen, hall, _⟩ := tryMatchAt_some htm
      rcases hcs with hcs | hcs
      · exact ⟨[], ['v', '='], g', q, by simp [hcs], Or.inl rfl, hlen, hall⟩
      · exact ⟨[], ['/'], g', q, by simp [hcs], Or.inr rfl, hlen, hall⟩
    | none =>
      rw [htm] at h
      obtain ⟨p, mid, g, q, hcs, hmid, hlen, hall⟩ :=
        searchId_some_hasPattern rest r h
      exact ⟨c :: p, mid, g, q, by simp [hcs], hmid, hlen, hall⟩

lemma searchId_cons_of_some {c : Char} {cs : List Char} {r : String}
    (h : tryMatchAt (c :: cs) = some r) : searchId (c :: cs) = some r := by
  simp only [searchId]
  rw [h]

lemma searchId_cons_of_none {c : Char} {cs : List Char}
    (h : tryMatchAt (c :: cs) = none) : searchId (c :: cs) = searchId cs := by
  simp only [searchId]
  rw [h]

lemma pattern_searchId_some {cs : List Char} (h : hasUrlPattern cs) :
    ∃ r, searchId cs = some r := by
  obtain ⟨p, mid, g, q, hcs, hmid, hlen, hall⟩ := h
  subst hcs
  induction p with
  | nil =>
    rcases hmid with hmid | hmid <;> subst hmid
    · refine ⟨String.mk g, ?_⟩
      have he : ([] : List Char) ++ ['v', '='] ++ g ++ q = 'v' :: '=' :: (g ++ q) := by
        simp
      rw [he]
      exact searchId_cons_of_some (window_append hlen hall)
    · refine ⟨String.mk g, ?_⟩
      have he : ([] : List Char) ++ ['/'] ++ g ++ q = '/' :: (g ++ q) := by
        simp
      rw [he]
      rcases g with _ | ⟨a, g2⟩
      · exact absurd hlen (by simp)
      · exact searchId_cons_of_some (window_append hlen hall)
  | cons c p ih =>
    have he : (c :: p) ++ mid ++ g ++ q = c :: (p ++ mid ++ g ++ q) := by
      simp
    rw [he]
    cases htm : tryMatchAt (c :: (p ++ mid ++ g ++ q)) with
    | some r => exact ⟨r, searchId_cons_of_some htm⟩
    | none =>
      rw [searchId_cons_of_none htm]
      exact ih

end YtTranscript

namespace YtTranscript

lemma pyMatch_of_all {s : String} (h11 : s.toList.length = 11)
    (hall : s.toList.all isIdChar = true) : pyMatchIdLine s = true := by
  unfold pyMatchIdLine
  have hne : s.toList.isEmpty = false := by
    cases hl : s.toList with
    | nil => rw [hl] at h11; exact absurd h11 (by simp)
    | cons a t => rfl
  rw [hne, hall]
  rfl

/-- C7.  Every string of length 11 whose characters all lie in
`[0-9A-Za-z_-]` is returned unchanged by `extract_video_id` (the bare-ID
fast path). -/
theorem extract_bare_id (s : String) (h11 : s.length = 11)
    (hall : s.toList.all isIdChar = true) : extract_video_id s = .ok s := by
  unfold extract_video_id
  rw [if_pos ⟨h11, pyMatch_of_all h11 hall⟩]

/-- Witness for `extract_bare_id` at the concrete identifier of the
repository's tests. -/
theorem extract_bare_id_witness :
    extract_video_id "dQw4w9WgXcQ" = .ok "dQw4w9WgXcQ" :=
  extract_bare_id "dQw4w9WgXcQ" (by decide) (by decide)

end YtTranscript

namespace YtTranscript

lemma extract_of_searchId {s : String} (hlen : ¬ s.length = 11) {r : String}
    (hs : searchId s.toList = some r) : extract_video_id s = .ok r := by
  unfold extract_video_id
  rw [if_neg (by intro hc; exact hlen hc.1), hs]

lemma searchId_ve_full {g : List Char} (hlen : g.length = 11)
    (hall : g.all isIdChar = true) : searchId ('v' :: '=' :: g) = some (String.mk g) := by
  refine searchId_cons_of_some ?_
  show window g = some (String.mk g)
  exact window_full hlen hall

lemma searchId_ve_append {g q : List Char} (hlen : g.length = 11)
    (hall : g.all isIdChar = true) :
    searchId ('v' :: '=' :: (g ++ q)) = some (String.mk g) := by
  refine searchId_cons_of_some ?_
  show window (g ++ q) = some (String.mk g)
  exact window_append hlen hall

lemma searchId_slash_full {g : List Char} (hlen : g.length = 11)
    (hall : g.all isIdChar = true) : searchId ('/' :: g) = some (String.mk g) := by
  rcases g with _ | ⟨a, t⟩
  · exact absurd hlen (by simp)
  · refine searchId_cons_of_some ?_
    show window (a :: t) = some (String.mk (a :: t))
    exact window_full hlen hall

/-- C8.  For each recognized URL shape with an arbitrary 11-character
identifier over `[0-9A-Za-z_-]`, `extract_video_id` returns the
identifier: `watch?v=ID`, `watch?v=ID` with trailing parameters,
`youtu.be/ID`, `embed/ID`, and `m.youtube.com/watch?v=ID` (the captured
group of the leftmost match of `YT_ID_RE`); and in particular on
`"https://www.youtube.com/watch?v=dQw4w9WgXcQ&t=10s"` it returns
`"dQw4w9WgXcQ"`. -/
theorem extract_url_shapes (id : String) (h11 : id.length = 11)
    (hall : id.toList.all isIdChar = true) :
    extract_video_id ("https://www.youtube.com/watch?v=" ++ id) = .ok id ∧
    extract_video_id ("https://www.youtube.com/watch?v=" ++ id ++ "&t=10s") = .ok id ∧
    extract_video_id ("https://youtu.be/" ++ id) = .ok id ∧
    extract_video_id ("https://www.youtube.com/embed/" ++ id) = .ok id ∧
    extract_video_id ("https://m.youtube.com/watch?v=" ++ id) = .ok id ∧
    extract_video_id "https://www.youtube.com/watch?v=dQw4w9WgXcQ&t=10s"
      = .ok "dQw4w9WgXcQ" := by
  have hl : id.toList.length = 11 := h11
  have hmk : some (String.mk id.toList) = some id := rfl
  refine ⟨?_, ?_, ?_, ?_, ?_, by decide⟩
  · refine extract_of_searchId (by rw [String.length_append, h11]; decide) ?_
    have e1 : ("https://www.youtube.com/watch?v=" ++ id).toList
        = "https://www.youtube.com/watch?".toList ++ ('v' :: '=' :: id.toList) := rfl
    have e2 : searchId ("https://www.youtube.com/watch?".toList ++ ('v' :: '=' :: id.toList))
        = searchId ('v' :: '=' :: id.toList) := rfl
    rw [e1, e2]
    exact (searchId_ve_full hl hall).trans hmk
  · refine extract_of_searchId
      (by rw [String.length_append, String.length_append, h11]; decide) ?_
    have e1 : ("https://www.youtube.com/watch?v=" ++ id ++ "&t=10s").toList
        = "https://www.youtube.com/watch?".toList
          ++ ('v' :: '=' :: (id.toList ++ "&t=10s".toList)) := rfl
    have e2 : searchId ("https://www.youtube.com/watch?".toList
          ++ ('v' :: '=' :: (id.toList ++ "&t=10s".toList)))
        = searchId ('v' :: '=' :: (id.toList ++ "&t=10s".toList)) := rfl
    rw [e1, e2]
    exact (searchId_ve_append hl hall).trans hmk
  · refine extract_of_searchId (by rw [String.length_append, h11]; decide) ?_
    have e1 : ("https://youtu.be/" ++ id).toList
        = "https://youtu.be".toList ++ ('/' :: id.toList) := rfl
    have e2 : searchId ("https://youtu.be".toList ++ ('/' :: id.toList))
        = searchId ('/' :: id.toList) := rfl
    rw [e1, e2]
    exact (searchId_slash_full hl hall).trans hmk
  · refine extract_of_searchId (by rw [String.length_append, h11]; decide) ?_
    have e1 : ("https://www.youtube.com/embed/" ++ id).toList
        = "https://www.youtube.com/embed".toList ++ ('/' :: id.toList) := rfl
    have e2 : searchId ("https://www.youtube.com/embed".toList ++ ('/' :: id.toList))
        = searchId ('/' :: id.toList) := rfl
    rw [e1, e2]
    exact (searchId_slash_full hl hall).trans hmk
  · refine extract_of_searchId (by rw [String.length_append, h11]; decide) ?_
    have e1 : ("https://m.youtube.com/watch?v=" ++ id).toList
        = "https://m.youtube.com/watch?".toList ++ ('v' :: '=' :: id.toList) := rfl
    have e2 : searchId ("https://m.youtube.com/watch?".toList ++ ('v' :: '=' :: id.toList))
        = searchId ('v' :: '=' :: id.toList) := rfl
    rw [e1, e2]
    exact (searchId_ve_full hl hall).trans hmk

/-- Witness for `extract_url_shapes` at `id = "dQw4w9WgXcQ"`. -/
theorem extract_url_shapes_witness :
    extract_video_id ("https://youtu.be/" ++ "dQw4w9WgXcQ") = .ok "dQw4w9WgXcQ" :=
  (extract_url_shapes "dQw4w9WgXcQ" (by decide) (by decide)).2.2.1

end YtTranscript

namespace YtTranscript

lemma no_pattern_searchId_none {cs : List Char} (h : ¬ hasUrlPattern cs) :
    searchId cs = none := by
  cases hs : searchId cs with
  | none => rfl
  | some r => exact absurd (searchId_some_hasPattern cs r hs) h

/-- C9 (amended).  If the input is not accepted by the bare-ID fast path
(length 11 and matched by `^[0-9A-Za-z_-]+$` under Python's `$`
semantics, which also admits 10 identifier characters plus a trailing
newline) and does not contain the URL pattern, then `extract_video_id`
fails, and the error message contains the original input. -/
theorem extract_parse_error (s : String)
    (hfast : ¬ (s.length = 11 ∧ pyMatchIdLine s = true))
    (hpat : ¬ hasUrlPattern s.toList) :
    ∃ pre post, extract_video_id s = .error (pre ++ s ++ post) := by
  refine ⟨"Could not parse a YouTube video ID from " ++ quoteMark, quoteMark, ?_⟩
  unfold extract_video_id
  rw [if_neg hfast, no_pattern_searchId_none hpat]

/-- Witness for `extract_parse_error` at the test inputs
`"invalid_id"`. -/
theorem extract_parse_error_witness :
    ∃ pre post, extract_video_id "invalid_id" = .error (pre ++ "invalid_id" ++ post) :=
  extract_parse_error "invalid_id" (by decide)
    (fun hp => by
      have h := pattern_searchId_some hp
      rw [show searchId "invalid_id".toList = none from by decide] at h
      exact absurd h (by simp))

/-- C9 (counterexample to the claim as stated).  The input
`"abcdefghij\n"` is not an 11-character token over `[0-9A-Za-z_-]` (its
last character is a newline) and contains no URL pattern, yet
`extract_video_id` accepts it unchanged, because Python's `$` in
`^[0-9A-Za-z_-]+$` also matches just before a trailing newline. -/
theorem extract_parse_error_claim_false :
    ¬ ("abcdefghij\n".length = 11 ∧ "abcdefghij\n".toList.all isIdChar = true) ∧
    ¬ hasUrlPattern "abcdefghij\n".toList ∧
    extract_video_id "abcdefghij\n" = .ok "abcdefghij\n" := by
  refine ⟨by decide, ?_, by decide⟩
  intro hp
  have h := pattern_searchId_some hp
  rw [show searchId "abcdefghij\n".toList = none from by decide] at h
  exact absurd h (by simp)

/-- C10 (amended).  Whenever `extract_video_id` succeeds, the result has
length 11 and satisfies the bare-ID fast-path predicate, so running
`extract_video_id` on the result returns it unchanged:
extraction is idempotent on success. -/
theorem extract_idempotent (s r : String) (h : extract_video_id s = .ok r) :
    r.length = 11 ∧ pyMatchIdLine r = true ∧ extract_video_id r = .ok r := by
  unfold extract_video_id at h
  by_cases hc : s.length = 11 ∧ pyMatchIdLine s = true
  · rw [if_pos hc] at h
    injection h with h
    subst h
    refine ⟨hc.1, hc.2, ?_⟩
    unfold extract_video_id
    rw [if_pos hc]
  · rw [if_neg hc] at h
    cases hs : searchId s.toList with
    | none => rw [hs] at h; exact absurd h (by simp)
    | some g =>
      rw [hs] at h
      injection h with h
      subst h
      obtain ⟨hlen, hall⟩ := searchId_some_props s.toList _ hs
      have hm := pyMatch_of_all hlen hall
      refine ⟨hlen, hm, ?_⟩
      unfold extract_video_id
      rw [if_pos ⟨hlen, hm⟩]

/-- Witness for `extract_idempotent` on a URL input. -/
theorem extract_idempotent_witness :
    "dQw4w9WgXcQ".length = 11 ∧ pyMatchIdLine "dQw4w9WgXcQ" = true ∧
      extract_video_id "dQw4w9WgXcQ" = .ok "dQw4w9WgXcQ" :=
  extract_idempotent "https://youtu.be/dQw4w9WgXcQ" "dQw4w9WgXcQ" (by decide)

/-- C10 (counterexample to the claim as stated).  `extract_video_id`
succeeds on `"abcdefghij\n"` with a result that is not a string over
`[0-9A-Za-z_-]` — the claimed alphabet property of successful results
fails (idempotence itself still holds). -/
theorem extract_result_alphabet_false :
    extract_video_id "abcdefghij\n" = .ok "abcdefghij\n" ∧
    "abcdefghij\n".toList.all isIdChar = false := by
  exact ⟨by decide, by decide⟩

end YtTranscript

namespace YtTranscript

lemma intercalate_go_append (s : String) : ∀ (l : List String) (acc1 acc2 : String),
    String.intercalate.go (acc1 ++ acc2) s l = acc1 ++ String.intercalate.go acc2 s l
  | [], _, _ => rfl
  | a :: as, acc1, acc2 => by
    show String.intercalate.go ((acc1 ++ acc2) ++ s ++ a) s as
        = acc1 ++ String.intercalate.go ((acc2 ++ s) ++ a) s as
    rw [show ((acc1 ++ acc2) ++ s ++ a) = acc1 ++ ((acc2 ++ s) ++ a) by
      simp [String.append_assoc]]
    exact intercalate_go_append s as acc1 ((acc2 ++ s) ++ a)

lemma joinTexts_cons (a b : Segment) (l : List Segment) :
    joinTexts (a :: b :: l) = a.text ++ " " ++ joinTexts (b :: l) := by
  show String.intercalate.go ((a.text ++ " ") ++ b.text) " " (l.map Segment.text)
      = (a.text ++ " ") ++ String.intercalate.go b.text " " (l.map Segment.text)
  exact intercalate_go_append " " (l.map Segment.text) (a.text ++ " ") b.text

/-- Track set for the concrete join scenario: a manual English track
whose segments are `"Hello"` and `"world"`. -/
def helloTracks : TranscriptList where
  find_transcript := fun langs =>
    if langs = ["en"] then .ok [⟨"Hello"⟩, ⟨"world"⟩]
    else .error (.noTranscriptFound "no transcript")
  find_generated_transcript := fun _ => .error (.noTranscriptFound "no transcript")

def helloSvc : Service := ⟨fun _ => .ok helloTracks⟩

/-- Track set whose every fetch returns the empty segment list. -/
def emptyTracks : TranscriptList where
  find_transcript := fun _ => .ok []
  find_generated_transcript := fun _ => .ok []

def emptySvc : Service := ⟨fun _ => .ok emptyTracks⟩

/-- C2.  Joining concatenates segment texts in order with exactly one
ASCII space between adjacent segments and none at the ends; the empty
segment list joins to the empty string; and through the resolver,
segments `"Hello"`,`"world"` yield `"Hello world"` and an empty fetch
yields `""`. -/
theorem resolve_join_single_spaces :
    (joinTexts [] = "") ∧
    (∀ a : Segment, joinTexts [a] = a.text) ∧
    (∀ (a b : Segment) (l : List Segment),
      joinTexts (a :: b :: l) = a.text ++ " " ++ joinTexts (b :: l)) ∧
    fetch_transcript helloSvc "vid" (some ["en"]) = .ok "Hello world" ∧
    fetch_transcript emptySvc "vid" none = .ok "" :=
  ⟨rfl, fun _ => rfl, joinTexts_cons, by decide, by decide⟩

lemma tryLangs_cons_ok {tl : TranscriptList} {lang : String} {rest : List String}
    {segs : List Segment} (h : tl.find_transcript [lang] = .ok segs) :
    tryLangs tl (lang :: rest) = .ok (joinTexts segs) := by
  simp only [tryLangs, h]

lemma tryLangs_cons_gen {tl : TranscriptList} {lang : String} {rest : List String}
    {m : String} {segs : List Segment}
    (h1 : tl.find_transcript [lang] = .error (.noTranscriptFound m))
    (h2 : tl.find_generated_transcript [lang] = .ok segs) :
    tryLangs tl (lang :: rest) = .ok (joinTexts segs) := by
  simp only [tryLangs, h1, h2]

lemma tryLangs_cons_skip {tl : TranscriptList} {lang : String} {rest : List String}
    {m m2 : String}
    (h1 : tl.find_transcript [lang] = .error (.noTranscriptFound m))
    (h2 : tl.find_generated_transcript [lang] = .error (.noTranscriptFound m2)) :
    tryLangs tl (lang :: rest) = tryLangs tl rest := by
  simp only [tryLangs, h1, h2]

lemma fetch_eq_of_list_ok {svc : Service} {vid : String} {tl : TranscriptList}
    (hl : svc.list vid = .ok tl) (pl : Option (List String)) :
    fetch_transcript svc vid pl =
      match tryLangs tl (effectiveLangs pl) with
      | .ok text => .ok text
      | .error e => .error (translateError e) := by
  unfold fetch_transcript
  rw [hl]

lemma fetch_eq_of_list_error {svc : Service} {vid : String} {e : ServiceError}
    (hl : svc.list vid = .error e) (pl : Option (List String)) :
    fetch_transcript svc vid pl = .error (translateError e) := by
  unfold fetch_transcript
  rw [hl]

/-- Track set for the language-fallback scenario: no Spanish track at
all, a manual English track with segments `"Hello"`,`"world"`. -/
def fallbackTracks : TranscriptList where
  find_transcript := fun langs =>
    if langs = ["en"] then .ok [⟨"Hello"⟩, ⟨"world"⟩]
    else .error (.noTranscriptFound "no manual")
  find_generated_transcript := fun _ => .error (.noTranscriptFound "no auto")

def fallbackSvc : Service := ⟨fun _ => .ok fallbackTracks⟩

/-- C1.  The resolver walks the preferred languages strictly in order,
trying the manual track first and the auto-generated track second for
each one, returns the joined text of the first track found, skips to the
next language only when both lookups report no track, and after
exhausting the list falls back to `find_transcript([])` (the service's
own default).  In particular, with `["es","en"]` where `"es"` has
neither track and `"en"` has a manual one the English text is returned,
and a language with only an auto-generated track yields that track's
text. -/
theorem resolve_fallback_order (svc : Service) (vid : String)
    (tl : TranscriptList) (hl : svc.list vid = .ok tl) :
    (∀ lang rest segs, tl.find_transcript [lang] = .ok segs →
      tryLangs tl (lang :: rest) = .ok (joinTexts segs)) ∧
    (∀ lang rest m segs,
      tl.find_transcript [lang] = .error (.noTranscriptFound m) →
      tl.find_generated_transcript [lang] = .ok segs →
      tryLangs tl (lang :: rest) = .ok (joinTexts segs)) ∧
    (∀ lang rest m m2,
      tl.find_transcript [lang] = .error (.noTranscriptFound m) →
      tl.find_generated_transcript [lang] = .error (.noTranscriptFound m2) →
      tryLangs tl (lang :: rest) = tryLangs tl rest) ∧
    (tryLangs tl [] = Except.map joinTexts (tl.find_transcript [])) ∧
    (∀ ls t, ls ≠ [] → tryLangs tl ls = .ok t →
      fetch_transcript svc vid (some ls) = .ok t) ∧
    (∀ m m2 segs,
      tl.find_transcript ["es"] = .error (.noTranscriptFound m) →
      tl.find_generated_transcript ["es"] = .error (.noTranscriptFound m2) →
      tl.find_transcript ["en"] = .ok segs →
      fetch_transcript svc vid (some ["es", "en"]) = .ok (joinTexts segs)) ∧
    (∀ lang m segs,
      tl.find_transcript [lang] = .error (.noTranscriptFound m) →
      tl.find_generated_transcript [lang] = .ok segs →
      fetch_transcript svc vid (some [lang]) = .ok (joinTexts segs)) := by
  refine ⟨fun lang rest segs h => tryLangs_cons_ok h,
    fun lang rest m segs h1 h2 => tryLangs_cons_gen h1 h2,
    fun lang rest m m2 h1 h2 => tryLangs_cons_skip h1 h2,
    rfl, ?_, ?_, ?_⟩
  · intro ls t hne ht
    cases ls with
    | nil => exact absurd rfl hne
    | cons l ls2 =>
      rw [fetch_eq_of_list_ok hl, show effectiveLangs (some (l :: ls2)) = l :: ls2 from rfl,
        ht]
  · intro m m2 segs h1 h2 h3
    rw [fetch_eq_of_list_ok hl, show effectiveLangs (some ["es", "en"]) = ["es", "en"] from rfl,
      tryLangs_cons_skip h1 h2, tryLangs_cons_ok h3]
  · intro lang m segs h1 h2
    rw [fetch_eq_of_list_ok hl, show effectiveLangs (some [lang]) = [lang] from rfl,
      tryLangs_cons_gen h1 h2]

/-- Witness for `resolve_fallback_order`: the `["es","en"]` scenario on
a concrete service. -/
theorem resolve_fallback_order_witness :
    fetch_transcript fallbackSvc "vid" (some ["es", "en"]) = .ok "Hello world" := by
  have h := (resolve_fallback_order fallbackSvc "vid" fallbackTracks rfl).2.2.2.2.2.1
  exact (h "no manual" "no auto" [⟨"Hello"⟩, ⟨"world"⟩] (by decide) (by decide)
    (by decide)).trans (by decide)

end YtTranscript

namespace YtTranscript

/-- Track set distinguishing the explicit `["en"]` lookup (segment
`"english"`) from the service-default `[]` lookup (segment
`"default"`). -/
def langTracks : TranscriptList where
  find_transcript := fun langs =>
    if langs = ["en"] then .ok [⟨"english"⟩]
    else if langs = [] then .ok [⟨"default"⟩]
    else .error (.noTranscriptFound "missing")
  find_generated_transcript := fun _ => .error (.noTranscriptFound "missing")

def langSvc : Service := ⟨fun _ => .ok langTracks⟩

/-- C3 (counterexample to the claim as stated).  With an explicitly
empty preferred-language list the resolver does NOT go straight to the
service-default fallback: `preferred_langs or ["en"]` replaces the empty
list by `["en"]` (the empty list is falsy in Python), so the per-language
loop runs with `"en"` and returns `"english"`, not the `"default"` text
the service-default lookup would give. -/
theorem resolve_empty_langs_claim_false :
    fetch_transcript langSvc "vid" (some []) = .ok "english" ∧
    Except.map joinTexts (langTracks.find_transcript []) = .ok "default" :=
  ⟨by decide, by decide⟩

/-- C3 (amended).  The resolver substitutes the default list `["en"]`
both when the preferred-language argument is `None`/absent and when it
is an explicitly empty list; at the resolver boundary the two calls are
indistinguishable. -/
theorem resolve_default_langs :
    (∀ svc vid, fetch_transcript svc vid (some []) = fetch_transcript svc vid none) ∧
    effectiveLangs (some []) = ["en"] ∧ effectiveLangs none = ["en"] :=
  ⟨fun _ _ => rfl, rfl, rfl⟩

def unavailableSvc : Service :=
  ⟨fun _ => .error (.videoUnavailable "The video is no longer available")⟩

/-- C4 (the code, at the failing input).  A `VideoUnavailable` failure
is intercepted by the `except Exception` catch-all, which precedes the
dedicated handler in the source, so the resolver reports
`"Unexpected error: ..."` instead of the intended
`"Video is unavailable or private."` (the repository's own tests expect
the latter). -/
theorem resolve_video_unavailable_dead :
    fetch_transcript unavailableSvc "vid" none
      = .error "Unexpected error: The video is no longer available" ∧
    fetch_transcript unavailableSvc "vid" none
      ≠ .error "Video is unavailable or private." :=
  ⟨by decide, by decide⟩

lemma translateError_shape (e : ServiceError) :
    translateError e = "Transcripts are disabled for this video." ∨
    translateError e = "No transcript available in the requested languages." ∨
    translateError e = "YouTube is rate-limiting us.  Try again later." ∨
    (∃ m, translateError e = "Unexpected error: " ++ m) ∨
    translateError e = "Video is unavailable or private." := by
  cases e with
  | transcriptsDisabled m => exact Or.inl rfl
  | noTranscriptFound m => exact Or.inr (Or.inl rfl)
  | videoUnavailable m =>
    by_cases h : containsSub (pyLower m) "rate" = true
    · refine Or.inr (Or.inr (Or.inl ?_))
      simp only [translateError]
      rw [if_pos h]
    · refine Or.inr (Or.inr (Or.inr (Or.inl ⟨m, ?_⟩)))
      simp only [translateError]
      rw [if_neg h]
  | other m =>
    by_cases h : containsSub (pyLower m) "rate" = true
    · refine Or.inr (Or.inr (Or.inl ?_))
      simp only [translateError]
      rw [if_pos h]
    · refine Or.inr (Or.inr (Or.inr (Or.inl ⟨m, ?_⟩)))
      simp only [translateError]
      rw [if_neg h]

lemma fetch_error_translate {svc : Service} {vid : String}
    {pl : Option (List String)} {r : String}
    (h : fetch_transcript svc vid pl = .error r) : ∃ e, r = translateError e := by
  cases hl : svc.list vid with
  | error e =>
    rw [fetch_eq_of_list_error hl] at h
    injection h with h
    exact ⟨e, h.symm⟩
  | ok tl =>
    rw [fetch_eq_of_list_ok hl] at h
    cases ht : tryLangs tl (effectiveLangs pl) with
    | ok t => rw [ht] at h; exact absurd h (by simp)
    | error e =>
      rw [ht] at h
      simp only [] at h
      injection h with h
      exact ⟨e, h.symm⟩

/-- C5.  Every resolver failure is reported as one of the five reasons
of the translation table (with the rate-limit message exactly as the
source spells it), and — the resolver returning `Except String` — the
external `ServiceError` taxonomy never escapes the resolver boundary. -/
theorem resolve_errors_closed (svc : Service) (vid : String)
    (pl : Option (List String)) (r : String)
    (h : fetch_transcript svc vid pl = .error r) :
    r = "Transcripts are disabled for this video." ∨
    r = "No transcript available in the requested languages." ∨
    r = "YouTube is rate-limiting us.  Try again later." ∨
    (∃ m, r = "Unexpected error: " ++ m) ∨
    r = "Video is unavailable or private." := by
  obtain ⟨e, he⟩ := fetch_error_translate h
  rw [he]
  exact translateError_shape e

def disabledSvc : Service := ⟨fun _ => .error (.transcriptsDisabled "disabled")⟩

/-- Witness for `resolve_errors_closed` on a captions-disabled
service. -/
theorem resolve_errors_closed_witness :
    "Transcripts are disabled for this video."
        = "Transcripts are disabled for this video." ∨
    "Transcripts are disabled for this video."
        = "No transcript available in the requested languages." ∨
    "Transcripts are disabled for this video."
        = "YouTube is rate-limiting us.  Try again later." ∨
    (∃ m, "Transcripts are disabled for this video." = "Unexpected error: " ++ m) ∨
    "Transcripts are disabled for this video." = "Video is unavailable or private." :=
  resolve_errors_closed disabledSvc "vid" none
    "Transcripts are disabled for this video." (by decide)

def rateSvc : Service := ⟨fun _ => .error (.other "Rate limit exceeded")⟩

/-- C6 (counterexample to the claim as stated).  On a rate-limit failure
the resolver's message is `"YouTube is rate-limiting us.  Try again
later."` — with two spaces after `us.`, as spelled in the source — which
is not the single-spaced string the claim quotes. -/
theorem rate_limit_message_claim_false :
    fetch_transcript rateSvc "vid" none
      = .error "YouTube is rate-limiting us.  Try again later." ∧
    "YouTube is rate-limiting us.  Try again later."
      ≠ "YouTube is rate-limiting us. Try again later." :=
  ⟨by decide, by decide⟩

/-- C6 (amended).  Any failure outside the three named categories whose
message contains `"rate"` (case-insensitively) is reported exactly as
`"YouTube is rate-limiting us.  Try again later."` (two spaces after
`us.`, as the source spells it). -/
theorem rate_limit_message (msg : String)
    (h : containsSub (pyLower msg) "rate" = true) :
    translateError (.other msg) = "YouTube is rate-limiting us.  Try again later." ∧
    (∀ svc vid pl, svc.list vid = .error (.other msg) →
      fetch_transcript svc vid pl
        = .error "YouTube is rate-limiting us.  Try again later.") := by
  have ht : translateError (.other msg)
      = "YouTube is rate-limiting us.  Try again later." := by
    simp only [translateError]
    rw [if_pos h]
  exact ⟨ht, fun svc vid pl hl => by rw [fetch_eq_of_list_error hl, ht]⟩

/-- Witness for `rate_limit_message` at a concrete message. -/
theorem rate_limit_message_witness :
    translateError (.other "Rate limit exceeded")
      = "YouTube is rate-limiting us.  Try again later." :=
  (rate_limit_message "Rate limit exceeded" (by decide)).1

end YtTranscript
